import Mathlib

/-!
Verification development for the claude-limitline usage engine.

Shallow embedding of the usage acquisition, caching and temporal-progress
code (`src/utils/oauth.ts`, `src/segments/weekly.ts`, `src/utils/history.ts`)
into Lean.  Timestamps are epoch milliseconds modelled as `ℤ`; JS `number`
arithmetic on percentages is modelled with `ℚ`; JS `null`/`undefined`
is modelled with `Option`.  Calendar-day arithmetic (`Date.setDate` by ±7)
is modelled as an exact shift of 7·24·3600·1000 milliseconds.
-/

namespace Limitline

/-- JS `Math.round x` = `⌊x + 1/2⌋` (round half away from zero is not what JS
does; JS rounds half up, i.e. toward +∞, which is exactly `⌊x + 1/2⌋`). -/
def jsRound (x : ℚ) : ℤ := ⌊x + 1/2⌋

/-- Milliseconds in one day. -/
def msPerDay : ℤ := 86400000

/-- Milliseconds in the 7-day week period used by the weekly segment. -/
def weekMs : ℤ := 7 * msPerDay

/-- Embedding of `WeeklyProvider.calculateWeekProgressFromResetTime`
(`src/segments/weekly.ts:59-85`).  `resetAt` and `now` are epoch ms.
The source computes `periodStart = resetAt - 7 days` and
`totalMs = resetTime - periodStart = 7 days`; when `now > resetTime` it
re-anchors to the period `[resetAt, resetAt + 7 days]` and returns the
rounded percentage WITHOUT clamping; otherwise it clamps to [0,100]
before rounding. -/
def calculateWeekProgressFromResetTime (resetAt now : ℤ) : ℤ :=
  if resetAt < now then
    jsRound (((now - resetAt : ℤ) : ℚ) / (weekMs : ℚ) * 100)
  else
    jsRound (max 0 (min 100 (((now - (resetAt - weekMs) : ℤ) : ℚ) / (weekMs : ℚ) * 100)))

/-- Embedding of `WeeklyProvider.calculateWeekProgress`
(`src/segments/weekly.ts:17-57`), the fallback (no remote reset time) mode.
`dayOfWeek`, `hours`, `minutes` are the local wall-clock components of
"now"; `resetDay`/`resetHour`/`resetMinute` are the optional configured
schedule (defaults Monday=1, 0, 0).  JS `%` truncates toward zero, which
is `Int.tmod`. -/
def calculateWeekProgress (dayOfWeek hours minutes : ℤ)
    (resetDay resetHour resetMinute : Option ℤ) : ℤ :=
  let targetDay := resetDay.getD 1
  let targetHour := resetHour.getD 0
  let targetMinute := resetMinute.getD 0
  let daysSinceReset0 := Int.tmod (dayOfWeek - targetDay + 7) 7
  let daysSinceReset :=
    if daysSinceReset0 = 0 ∧ hours * 60 + minutes < targetHour * 60 + targetMinute then
      7
    else
      daysSinceReset0
  let hoursIntoWeek : ℚ :=
    ((daysSinceReset * 24 + hours - targetHour : ℤ) : ℚ)
      + ((minutes - targetMinute : ℤ) : ℚ) / 60
  let totalHoursInWeek : ℚ := 7 * 24
  jsRound (max 0 (min 100 (hoursIntoWeek / totalHoursInWeek * 100)))

/-- One quota dimension (interface `UsageData`, `src/utils/oauth.ts:333-337`).
`resetAt` is an epoch-ms timestamp (a `Date` in the source). -/
structure UsageData where
  resetAt : ℤ
  percentUsed : ℚ
  isOverLimit : Bool
deriving DecidableEq

/-- The normalized quota snapshot (interface `OAuthUsageResponse`,
`src/utils/oauth.ts:339-345`).  The optional `raw` passthrough field holds
the untyped API body and is carried by no claim, so it is omitted. -/
structure OAuthUsageResponse where
  fiveHour : Option UsageData
  sevenDay : Option UsageData
  sevenDayOpus : Option UsageData
  sevenDaySonnet : Option UsageData
deriving DecidableEq

/-- One block of the raw API body (interface `ApiUsageBlock`,
`src/utils/oauth.ts:347-350`).  `resets_at` is modelled as the already
parsed epoch-ms timestamp of the ISO-8601 string (string parsing is
external to the engine). -/
structure ApiUsageBlock where
  resets_at : Option ℤ
  utilization : Option ℚ
deriving DecidableEq

/-- The raw API body (interface `ApiResponse`, `src/utils/oauth.ts:352-357`).
A key that is JSON-missing or JSON-null is `none` (the source folds null
into undefined with `?? undefined` for the two model-specific keys). -/
structure ApiResponse where
  five_hour : Option ApiUsageBlock
  seven_day : Option ApiUsageBlock
  seven_day_opus : Option ApiUsageBlock
  seven_day_sonnet : Option ApiUsageBlock
deriving DecidableEq

/-- Embedding of the inner `parseUsageBlock` closure of `fetchUsageFromAPI`
(`src/utils/oauth.ts:644-651`).  `now` is the value `new Date()` would
yield for an absent `resets_at`. -/
def parseUsageBlock (now : ℤ) : Option ApiUsageBlock → Option UsageData
  | none => none
  | some block =>
    some { resetAt := block.resets_at.getD now
           percentUsed := block.utilization.getD 0
           isOverLimit := decide (100 ≤ block.utilization.getD 0) }

/-- Embedding of the success-path normalization of `fetchUsageFromAPI`
(`src/utils/oauth.ts:653-659`): the body built from the parsed JSON. -/
def fetchUsageNormalize (now : ℤ) (data : ApiResponse) : OAuthUsageResponse :=
  { fiveHour := parseUsageBlock now data.five_hour
    sevenDay := parseUsageBlock now data.seven_day
    sevenDayOpus := parseUsageBlock now data.seven_day_opus
    sevenDaySonnet := parseUsageBlock now data.seven_day_sonnet }

/-- Trend direction (`TrendDirection`, `src/utils/oauth.ts:672`); the TS
union also contains `null`, modelled as `Option TrendDirection`. -/
inductive TrendDirection where
  | up
  | down
  | same
deriving DecidableEq

/-- `TrendInfo` (`src/utils/oauth.ts:674-679`). -/
structure TrendInfo where
  fiveHourTrend : Option TrendDirection
  sevenDayTrend : Option TrendDirection
  sevenDayOpusTrend : Option TrendDirection
  sevenDaySonnetTrend : Option TrendDirection
deriving DecidableEq

/-- The inner `compareTrend` closure of `getUsageTrend`
(`src/utils/oauth.ts:693-702`). -/
def compareTrend (current previous : Option UsageData) : Option TrendDirection :=
  match current, previous with
  | some c, some p =>
    let diff := c.percentUsed - p.percentUsed
    if 1/2 < diff then some .up
    else if diff < -(1/2) then some .down
    else some .same
  | _, _ => none

/-- Embedding of `getUsageTrend` (`src/utils/oauth.ts:681-710`), as a pure
function of the two module-level cache slots it reads. -/
def getUsageTrend (cachedUsage previousUsage : Option OAuthUsageResponse) : TrendInfo :=
  match cachedUsage, previousUsage with
  | some cu, some pu =>
    { fiveHourTrend := compareTrend cu.fiveHour pu.fiveHour
      sevenDayTrend := compareTrend cu.sevenDay pu.sevenDay
      sevenDayOpusTrend := compareTrend cu.sevenDayOpus pu.sevenDayOpus
      sevenDaySonnetTrend := compareTrend cu.sevenDaySonnet pu.sevenDaySonnet }
  | _, _ => ⟨none, none, none, none⟩

/-- Tokens are opaque strings in the source (never inspected by the cache
logic); modelled as `ℕ`. -/
abbrev Token := ℕ

/-- The four module-level cache globals of `src/utils/oauth.ts:666-670`. -/
structure CacheState where
  cachedUsage : Option OAuthUsageResponse
  previousUsage : Option OAuthUsageResponse
  cacheTimestamp : ℤ
  cachedToken : Option Token
deriving DecidableEq

/-- The token the fetch path uses: the cached token if present, else the
result of `getOAuthToken()` (`src/utils/oauth.ts:726-732`). -/
def resolvedToken (cached fresh : Option Token) : Option Token :=
  match cached with
  | some t => some t
  | none => fresh

/-- Embedding of `getRealtimeUsage` (`src/utils/oauth.ts:712-748`) as an
explicit state transformer.  `now` is `Date.now()`, `tokenLookup` is what
`getOAuthToken()` would return, `api` is what `fetchUsageFromAPI` would
return for a given token.  Returns the function result and the new values
of the four cache globals. -/
def getRealtimeUsage (pollIntervalMinutes now : ℤ) (tokenLookup : Option Token)
    (api : Token → Option OAuthUsageResponse) (s : CacheState) :
    Option OAuthUsageResponse × CacheState :=
  let cacheAgeMs := now - s.cacheTimestamp
  let pollIntervalMs := pollIntervalMinutes * 60 * 1000
  if s.cachedUsage.isSome ∧ cacheAgeMs < pollIntervalMs then
    (s.cachedUsage, s)
  else
    match resolvedToken s.cachedToken tokenLookup with
    | none => (none, s)
    | some tok =>
      match api tok with
      | some usage =>
        (some usage,
         { cachedUsage := some usage
           previousUsage := s.cachedUsage
           cacheTimestamp := now
           cachedToken := some tok })
      | none =>
        (none, { s with cachedToken := none })

/-- Embedding of `clearUsageCache` (`src/utils/oauth.ts:750-755`). -/
def clearUsageCache (_s : CacheState) : CacheState :=
  { cachedUsage := none, previousUsage := none, cacheTimestamp := 0, cachedToken := none }

/-- The operations that touch the cache globals. -/
inductive Event where
  | getUsage (pollIntervalMinutes now : ℤ) (tokenLookup : Option Token)
      (api : Token → Option OAuthUsageResponse)
  | clear

/-- One cache transition. -/
def step (s : CacheState) : Event → CacheState
  | .getUsage p now tokenLookup api => (getRealtimeUsage p now tokenLookup api s).2
  | .clear => clearUsageCache s

/-- The 8 sparkline intensity glyphs (`SPARKLINE_CHARS`,
`src/utils/history.ts:16`). -/
def SPARKLINE_CHARS : List Char := ['▁', '▂', '▃', '▄', '▅', '▆', '▇', '█']

/-- The bucket index `Math.floor(clamp(v,0,100)/100 * 7)` used by
`getSparkline` (`src/utils/history.ts:94-95`). -/
def bucketIndex (value : ℚ) : ℕ :=
  (⌊max 0 (min 100 value) / 100 * 7⌋).toNat

/-- JS `arr.slice(-width)`: for `width > 0` the last `min width arr.length`
elements; for `width = 0`, `slice(-0)` is `slice(0)`, the whole array. -/
def jsSliceLast {α : Type} (l : List α) (width : ℕ) : List α :=
  if width = 0 then l else l.drop (l.length - width)

/-- Embedding of `getSparkline` (`src/utils/history.ts:77-99`). -/
def getSparkline (samples : List (Option ℚ)) (width : ℕ) : String :=
  let validSamples := samples.filterMap id
  if validSamples.isEmpty then
    String.mk []
  else
    String.mk ((jsSliceLast validSamples width).map
      (fun value => SPARKLINE_CHARS.getD (bucketIndex value) ' '))

/-- The sparkline pipeline as the spec words it: drop absent values, keep
only the most recent `width` remaining entries, map each through the
bucket glyphs; empty and all-absent inputs give the empty string. -/
def sparklineSpec (samples : List (Option ℚ)) (width : ℕ) : String :=
  let validSamples := samples.filterMap id
  String.mk ((validSamples.drop (validSamples.length - width)).map
    (fun value => SPARKLINE_CHARS.getD (bucketIndex value) ' '))

/-- Modelled from the spec: the time-remaining computation of
`BlockProvider.getBlockInfo` (`src/segments/block.ts` is absent from the
repository snapshot; only its test `src/unnamed/part_002` and callers are
present).  Spec §4.4: time-remaining (minutes) is
`max(0, round((resetAt - now) in minutes))`. -/
def blockTimeRemaining (resetAt now : ℤ) : ℤ :=
  max 0 (jsRound (((resetAt - now : ℤ) : ℚ) / 60000))

/-- Per-dimension trend characterization used to state C5: absent input on
either side gives `none`; otherwise the direction is determined by the
delta against the ±0.5 dead-band. -/
def trendSpec (t : Option TrendDirection) (c p : Option UsageData) : Prop :=
  match c, p with
  | some a, some b =>
    (t = some .up ↔ 1/2 < a.percentUsed - b.percentUsed) ∧
    (t = some .down ↔ a.percentUsed - b.percentUsed < -(1/2)) ∧
    (t = some .same ↔ |a.percentUsed - b.percentUsed| ≤ 1/2)
  | _, _ => t = none

/-- Per-key normalization characterization used to state C6: the output
window is absent exactly when the input key is absent, and a present
window carries the defaulted fields with `isOverLimit` derived. -/
def fieldSpec (now : ℤ) (input : Option ApiUsageBlock) (output : Option UsageData) : Prop :=
  (output = none ↔ input = none) ∧
  ∀ b w, input = some b → output = some w →
    w.resetAt = b.resets_at.getD now ∧
    w.percentUsed = b.utilization.getD 0 ∧
    (w.isOverLimit = true ↔ 100 ≤ w.percentUsed)

theorem jsRound_nonneg {x : ℚ} (hx : 0 ≤ x) : 0 ≤ jsRound x := by
  unfold jsRound
  exact Int.le_floor.mpr (by push_cast; linarith)

theorem jsRound_le {x : ℚ} {n : ℤ} (hx : x ≤ (n : ℚ)) : jsRound x ≤ n := by
  unfold jsRound
  have h : ⌊x + 1/2⌋ < n + 1 := Int.floor_lt.mpr (by push_cast; linarith)
  omega

/-- C1 counterexample: the claim asserts the remote-anchored week progress is
always in [0,100], but at `resetAt = 0` and `now` 14 days later the
re-anchored branch (which has no clamp) returns 200. -/
theorem c1_counterexample :
    100 < calculateWeekProgressFromResetTime 0 (14 * 86400000) := by
  norm_num [calculateWeekProgressFromResetTime, jsRound, weekMs, msPerDay]

/-- C1 (amended): provided `now` has not passed the projected next reset
(`now ≤ resetAt + period`), the remote-anchored week progress is in
[0,100]; within `[resetAt - period, resetAt]` it is the clamped rounded
elapsed fraction of that period, and for `resetAt < now` it is the rounded
elapsed fraction of the re-anchored period `[resetAt, resetAt + period]`. -/
theorem c1_week_progress_amended (resetAt now : ℤ) (h : now ≤ resetAt + weekMs) :
    (0 ≤ calculateWeekProgressFromResetTime resetAt now ∧
      calculateWeekProgressFromResetTime resetAt now ≤ 100) ∧
    (resetAt < now →
      calculateWeekProgressFromResetTime resetAt now =
        jsRound (((now - resetAt : ℤ) : ℚ) / (weekMs : ℚ) * 100)) ∧
    (now ≤ resetAt →
      calculateWeekProgressFromResetTime resetAt now =
        jsRound (max 0 (min 100
          (((now - (resetAt - weekMs) : ℤ) : ℚ) / (weekMs : ℚ) * 100)))) := by
  refine ⟨?_, ?_, ?_⟩
  · unfold calculateWeekProgressFromResetTime
    split_ifs with hgt
    · have hw : (0 : ℚ) < ((weekMs : ℤ) : ℚ) := by norm_num [weekMs, msPerDay]
      have hnum0 : (0 : ℚ) ≤ ((now - resetAt : ℤ) : ℚ) := by
        exact_mod_cast (by omega : (0 : ℤ) ≤ now - resetAt)
      have hnum1 : ((now - resetAt : ℤ) : ℚ) ≤ ((weekMs : ℤ) : ℚ) := by
        exact_mod_cast (by omega : now - resetAt ≤ weekMs)
      constructor
      · exact jsRound_nonneg (by positivity)
      · refine jsRound_le ?_
        have h1 : ((now - resetAt : ℤ) : ℚ) / ((weekMs : ℤ) : ℚ) ≤ 1 :=
          (div_le_one hw).mpr hnum1
        push_cast at h1 ⊢
        linarith
    · exact ⟨jsRound_nonneg (le_max_left _ _),
        jsRound_le (by push_cast; exact max_le (by norm_num) (min_le_left _ _))⟩
  · intro hlt
    simp [calculateWeekProgressFromResetTime, hlt]
  · intro hle
    simp [calculateWeekProgressFromResetTime, not_lt.mpr hle]

/-- C1 witness: `resetAt` 2 days in the future of `now` (5 days into the
7-day period) gives a progress within bounds (it is 71). -/
theorem c1_week_progress_amended_witness :
    0 ≤ calculateWeekProgressFromResetTime (7 * 86400000) (5 * 86400000) ∧
    calculateWeekProgressFromResetTime (7 * 86400000) (5 * 86400000) ≤ 100 :=
  (c1_week_progress_amended (7 * 86400000) (5 * 86400000)
    (by norm_num [weekMs, msPerDay])).1

/-- C7: the fallback-mode week progress is an integer in [0,100] for every
wall-clock input and every configured reset day/hour/minute, and the
same-day-but-before-reset-time case is computed with 7 days added
(still in the previous week's period). -/
theorem c7_fallback_progress (dayOfWeek hours minutes : ℤ)
    (resetDay resetHour resetMinute : Option ℤ) :
    (0 ≤ calculateWeekProgress dayOfWeek hours minutes resetDay resetHour resetMinute ∧
      calculateWeekProgress dayOfWeek hours minutes resetDay resetHour resetMinute ≤ 100) ∧
    (Int.tmod (dayOfWeek - resetDay.getD 1 + 7) 7 = 0 →
      hours * 60 + minutes < resetHour.getD 0 * 60 + resetMinute.getD 0 →
      calculateWeekProgress dayOfWeek hours minutes resetDay resetHour resetMinute =
        jsRound (max 0 (min 100
          ((((7 * 24 + hours - resetHour.getD 0 : ℤ) : ℚ) +
              ((minutes - resetMinute.getD 0 : ℤ) : ℚ) / 60) / (7 * 24) * 100)))) := by
  constructor
  · unfold calculateWeekProgress
    exact ⟨jsRound_nonneg (le_max_left _ _),
      jsRound_le (by push_cast; exact max_le (by norm_num) (min_le_left _ _))⟩
  · intro h1 h2
    simp [calculateWeekProgress, h1, h2]

/-- C7 witness: Monday 00:00 with reset configured Monday 01:00 is the
same-day-but-before-reset case; the theorem applies with both side
conditions discharged concretely. -/
theorem c7_fallback_progress_witness :
    calculateWeekProgress 1 0 0 none (some 1) (some 0) =
      jsRound (max 0 (min 100
        ((((7 * 24 + 0 - 1 : ℤ) : ℚ) + ((0 - 0 : ℤ) : ℚ) / 60) / (7 * 24) * 100))) :=
  (c7_fallback_progress 1 0 0 none (some 1) (some 0)).2 (by decide) (by decide)

/-- C8: the short-window time-remaining is `max(0, round((resetAt - now)
minutes))`: never negative, and exactly 0 whenever `now` is at or past
`resetAt`. -/
theorem c8_time_remaining (resetAt now : ℤ) :
    0 ≤ blockTimeRemaining resetAt now ∧
    (resetAt ≤ now → blockTimeRemaining resetAt now = 0) := by
  constructor
  · exact le_max_left _ _
  · intro h
    unfold blockTimeRemaining
    have hnum : ((resetAt - now : ℤ) : ℚ) ≤ 0 := by
      exact_mod_cast (by omega : resetAt - now ≤ (0 : ℤ))
    have hx : ((resetAt - now : ℤ) : ℚ) / 60000 ≤ ((0 : ℤ) : ℚ) := by
      push_cast at hnum ⊢
      exact div_nonpos_iff.mpr (Or.inr ⟨hnum, by norm_num⟩)
    exact max_eq_left (jsRound_le hx)

/-- C8 witness: a `resetAt` one second in the past gives exactly 0. -/
theorem c8_time_remaining_witness : blockTimeRemaining 0 1000 = 0 :=
  (c8_time_remaining 0 1000).2 (by decide)

/-- C2: when the cache is missing or expired, a token is available (cached
or freshly resolved) and the quota fetch fails, `getRealtimeUsage` returns
absent, leaves `current`/`previous`/`fetchedAtMs` unchanged, and discards
the cached token. -/
theorem c2_fetch_failure (p now : ℤ) (tokenLookup : Option Token)
    (api : Token → Option OAuthUsageResponse) (s : CacheState) (tok : Token)
    (hmiss : ¬(s.cachedUsage.isSome ∧ now - s.cacheTimestamp < p * 60 * 1000))
    (htok : resolvedToken s.cachedToken tokenLookup = some tok)
    (hfail : api tok = none) :
    (getRealtimeUsage p now tokenLookup api s).1 = none ∧
    (getRealtimeUsage p now tokenLookup api s).2.cachedUsage = s.cachedUsage ∧
    (getRealtimeUsage p now tokenLookup api s).2.previousUsage = s.previousUsage ∧
    (getRealtimeUsage p now tokenLookup api s).2.cacheTimestamp = s.cacheTimestamp ∧
    (getRealtimeUsage p now tokenLookup api s).2.cachedToken = none := by
  simp [getRealtimeUsage, hmiss, htok, hfail]

/-- C2 witness: cold cache, resolvable token, failing fetch. -/
theorem c2_fetch_failure_witness :
    (getRealtimeUsage 15 0 (some 3) (fun _ => none) ⟨none, none, 0, none⟩).1 = none ∧
    (getRealtimeUsage 15 0 (some 3) (fun _ => none) ⟨none, none, 0, none⟩).2.cachedUsage = none ∧
    (getRealtimeUsage 15 0 (some 3) (fun _ => none) ⟨none, none, 0, none⟩).2.previousUsage = none ∧
    (getRealtimeUsage 15 0 (some 3) (fun _ => none) ⟨none, none, 0, none⟩).2.cacheTimestamp = 0 ∧
    (getRealtimeUsage 15 0 (some 3) (fun _ => none) ⟨none, none, 0, none⟩).2.cachedToken = none :=
  c2_fetch_failure 15 0 (some 3) (fun _ => none) ⟨none, none, 0, none⟩ 3
    (by decide) rfl rfl

/-- C3: across every cache operation, `previousUsage` and `cachedUsage`
change only together: either both (with the timestamp) are untouched, or
the operation is a successful fetch that shifts the old `current` into
`previous`, stores the fetched snapshot as `current` and stamps the fetch
time, or the operation is the cache clear. -/
theorem c3_previous_atomic_shift (s : CacheState) (e : Event) :
    ((step s e).previousUsage = s.previousUsage ∧
      (step s e).cachedUsage = s.cachedUsage ∧
      (step s e).cacheTimestamp = s.cacheTimestamp) ∨
    (∃ p now tokenLookup api tok usage,
      e = Event.getUsage p now tokenLookup api ∧
      resolvedToken s.cachedToken tokenLookup = some tok ∧
      api tok = some usage ∧
      (step s e).previousUsage = s.cachedUsage ∧
      (step s e).cachedUsage = some usage ∧
      (step s e).cacheTimestamp = now) ∨
    (e = Event.clear ∧ step s e = ⟨none, none, 0, none⟩) := by
  cases e with
  | clear =>
    right; right
    exact ⟨rfl, rfl⟩
  | getUsage p now tokenLookup api =>
    by_cases hc : (s.cachedUsage.isSome ∧ now - s.cacheTimestamp < p * 60 * 1000)
    · left
      simp [step, getRealtimeUsage, hc]
    · cases htok : resolvedToken s.cachedToken tokenLookup with
      | none =>
        left
        simp [step, getRealtimeUsage, hc, htok]
      | some tok =>
        cases hapi : api tok with
        | none =>
          left
          simp [step, getRealtimeUsage, hc, htok, hapi]
        | some usage =>
          right; left
          refine ⟨p, now, tokenLookup, api, tok, usage, rfl, htok, hapi, ?_, ?_, ?_⟩ <;>
            simp [step, getRealtimeUsage, hc, htok, hapi]

/-- C4: a fresh cached snapshot is returned as-is: the call yields the
cached value and the state is completely unchanged, for every possible
credential resolver and fetcher (so neither is consulted). -/
theorem c4_cache_hit (p now : ℤ) (tokenLookup : Option Token)
    (api : Token → Option OAuthUsageResponse) (s : CacheState) (u : OAuthUsageResponse)
    (hsome : s.cachedUsage = some u)
    (hfresh : now - s.cacheTimestamp < p * 60 * 1000) :
    getRealtimeUsage p now tokenLookup api s = (some u, s) := by
  simp [getRealtimeUsage, hsome, hfresh]

/-- C4 witness: a snapshot fetched at time 0 queried again at time 0 with a
15-minute poll interval is served from cache, untouched. -/
theorem c4_cache_hit_witness :
    getRealtimeUsage 15 0 none (fun _ => none)
        ⟨some ⟨none, none, none, none⟩, none, 0, some 7⟩ =
      (some ⟨none, none, none, none⟩,
        ⟨some ⟨none, none, none, none⟩, none, 0, some 7⟩) :=
  c4_cache_hit 15 0 none (fun _ => none)
    ⟨some ⟨none, none, none, none⟩, none, 0, some 7⟩ ⟨none, none, none, none⟩
    rfl (by decide)

/-- C10: once the cached snapshot is as old as the poll interval it is
never served again as the call's result: with no token the call returns
absent; with a token and a failing fetch it returns absent while the stale
snapshot is retained (not evicted); with a successful fetch it returns the
fresh snapshot and the stale one becomes `previous` (the trend side). -/
theorem c10_no_stale_serve (p now : ℤ) (tokenLookup : Option Token)
    (api : Token → Option OAuthUsageResponse) (s : CacheState) (u : OAuthUsageResponse)
    (hsome : s.cachedUsage = some u)
    (hexp : p * 60 * 1000 ≤ now - s.cacheTimestamp) :
    (resolvedToken s.cachedToken tokenLookup = none →
      getRealtimeUsage p now tokenLookup api s = (none, s)) ∧
    (∀ tok, resolvedToken s.cachedToken tokenLookup = some tok → api tok = none →
      (getRealtimeUsage p now tokenLookup api s).1 = none ∧
      (getRealtimeUsage p now tokenLookup api s).2.cachedUsage = some u ∧
      (getRealtimeUsage p now tokenLookup api s).2.previousUsage = s.previousUsage) ∧
    (∀ tok usage, resolvedToken s.cachedToken tokenLookup = some tok →
      api tok = some usage →
      (getRealtimeUsage p now tokenLookup api s).1 = some usage ∧
      (getRealtimeUsage p now tokenLookup api s).2.previousUsage = some u) := by
  have hage : ¬(now - s.cacheTimestamp < p * 60 * 1000) := not_lt.mpr hexp
  refine ⟨?_, ?_, ?_⟩
  · intro htok
    simp [getRealtimeUsage, hage, htok]
  · intro tok htok hfail
    simp [getRealtimeUsage, hage, htok, hfail, hsome]
  · intro tok usage htok hok
    simp [getRealtimeUsage, hage, htok, hok, hsome]

/-- C10 witness: an exactly-15-minutes-old snapshot with a cached token and
a failing fetch yields absent while the stale snapshot is retained. -/
theorem c10_no_stale_serve_witness :
    (getRealtimeUsage 15 900000 none (fun _ => none)
        ⟨some ⟨none, none, none, none⟩, none, 0, some 7⟩).1 = none ∧
    (getRealtimeUsage 15 900000 none (fun _ => none)
        ⟨some ⟨none, none, none, none⟩, none, 0, some 7⟩).2.cachedUsage =
      some ⟨none, none, none, none⟩ ∧
    (getRealtimeUsage 15 900000 none (fun _ => none)
        ⟨some ⟨none, none, none, none⟩, none, 0, some 7⟩).2.previousUsage = none :=
  (c10_no_stale_serve 15 900000 none (fun _ => none)
    ⟨some ⟨none, none, none, none⟩, none, 0, some 7⟩ ⟨none, none, none, none⟩
    rfl (by decide)).2.1 7 rfl rfl

theorem compareTrend_trendSpec (c p : Option UsageData) :
    trendSpec (compareTrend c p) c p := by
  cases c with
  | none => cases p <;> simp [compareTrend, trendSpec]
  | some a =>
    cases p with
    | none => simp [compareTrend, trendSpec]
    | some b =>
      simp only [compareTrend, trendSpec]
      split_ifs with h1 h2
      · refine ⟨?_, ?_, ?_⟩
        · simp
          linarith
        · simp
          linarith
        · simp [abs_le]
          intro h3
          linarith
      · refine ⟨?_, ?_, ?_⟩
        · simp
          linarith
        · simp
          linarith
        · simp [abs_le]
          intro h3
          linarith
      · refine ⟨?_, ?_, ?_⟩
        · simp
          linarith
        · simp
          linarith
        · simp [abs_le]
          constructor <;> linarith

/-- C5: per dimension, the trend is absent when either whole snapshot or
either side's window is absent; otherwise it is `up` when the delta
(current minus previous) exceeds +0.5, `down` when it is below −0.5, and
`same` exactly when |delta| ≤ 0.5. -/
theorem c5_trend_characterization (cu pu : Option OAuthUsageResponse) :
    ((cu = none ∨ pu = none) → getUsageTrend cu pu = ⟨none, none, none, none⟩) ∧
    (∀ c p, cu = some c → pu = some p →
      trendSpec (getUsageTrend cu pu).fiveHourTrend c.fiveHour p.fiveHour ∧
      trendSpec (getUsageTrend cu pu).sevenDayTrend c.sevenDay p.sevenDay ∧
      trendSpec (getUsageTrend cu pu).sevenDayOpusTrend c.sevenDayOpus p.sevenDayOpus ∧
      trendSpec (getUsageTrend cu pu).sevenDaySonnetTrend c.sevenDaySonnet p.sevenDaySonnet) := by
  constructor
  · rintro (rfl | rfl)
    · cases pu <;> rfl
    · cases cu <;> rfl
  · intro c p hcu hpu
    subst hcu
    subst hpu
    exact ⟨compareTrend_trendSpec _ _, compareTrend_trendSpec _ _,
      compareTrend_trendSpec _ _, compareTrend_trendSpec _ _⟩

/-- C5 witness: snapshots whose five-hour windows read 10% and 5% satisfy
the per-dimension characterization (the delta 5 exceeds the dead-band). -/
theorem c5_trend_witness :
    trendSpec
      (getUsageTrend (some ⟨some ⟨0, 10, false⟩, none, none, none⟩)
        (some ⟨some ⟨0, 5, false⟩, none, none, none⟩)).fiveHourTrend
      (some ⟨0, 10, false⟩) (some ⟨0, 5, false⟩) :=
  ((c5_trend_characterization (some ⟨some ⟨0, 10, false⟩, none, none, none⟩)
    (some ⟨some ⟨0, 5, false⟩, none, none, none⟩)).2 _ _ rfl rfl).1

theorem parseUsageBlock_fieldSpec (now : ℤ) (ob : Option ApiUsageBlock) :
    fieldSpec now ob (parseUsageBlock now ob) := by
  cases ob with
  | none => simp [parseUsageBlock, fieldSpec]
  | some b =>
    refine ⟨by simp [parseUsageBlock], ?_⟩
    intro b' w hb hw
    obtain rfl : b' = b := (Option.some.inj hb).symm
    simp only [parseUsageBlock, Option.some.injEq] at hw
    subst hw
    exact ⟨rfl, rfl, by simp [decide_eq_true_eq]⟩

/-- C6: for every normalized API body, each output window is absent exactly
when the corresponding input key is absent (never zero-valued), and each
present window has `resetAt` defaulting to "now", `percentUsed` defaulting
to 0, and `isOverLimit` equal to `percentUsed ≥ 100`. -/
theorem c6_normalization (now : ℤ) (data : ApiResponse) :
    fieldSpec now data.five_hour (fetchUsageNormalize now data).fiveHour ∧
    fieldSpec now data.seven_day (fetchUsageNormalize now data).sevenDay ∧
    fieldSpec now data.seven_day_opus (fetchUsageNormalize now data).sevenDayOpus ∧
    fieldSpec now data.seven_day_sonnet (fetchUsageNormalize now data).sevenDaySonnet :=
  ⟨parseUsageBlock_fieldSpec now data.five_hour,
   parseUsageBlock_fieldSpec now data.seven_day,
   parseUsageBlock_fieldSpec now data.seven_day_opus,
   parseUsageBlock_fieldSpec now data.seven_day_sonnet⟩

/-- C6 witness: a `five_hour` block with `resets_at = 3` and
`utilization = 101` normalizes to the defaulted fields with
`isOverLimit` derived (true, since 101 ≥ 100). -/
theorem c6_normalization_witness :
    (⟨3, 101, true⟩ : UsageData).resetAt = (some (3 : ℤ)).getD 5 ∧
    (⟨3, 101, true⟩ : UsageData).percentUsed = (some (101 : ℚ)).getD 0 ∧
    ((⟨3, 101, true⟩ : UsageData).isOverLimit = true ↔
      100 ≤ (⟨3, 101, true⟩ : UsageData).percentUsed) :=
  ((c6_normalization 5 ⟨some ⟨some 3, some 101⟩, none, none, none⟩).1).2
    ⟨some 3, some 101⟩ ⟨3, 101, true⟩ rfl (by decide)

/-- C9 counterexample: the claim covers every width, but at width 0 the
source's `slice(-0)` keeps the whole array instead of the most recent 0
entries, so a one-element input renders one glyph, not the empty string
the claimed pipeline produces. -/
theorem c9_width_zero_counterexample :
    getSparkline [some (50 : ℚ)] 0 ≠ sparklineSpec [some (50 : ℚ)] 0 := by
  have h1 : getSparkline [some (50 : ℚ)] 0 = String.mk ['▄'] := by
    norm_num [getSparkline, jsSliceLast, bucketIndex, SPARKLINE_CHARS,
      List.filterMap, min_def, max_def]
    decide
  have h2 : sparklineSpec [some (50 : ℚ)] 0 = String.mk [] := by
    norm_num [sparklineSpec, List.filterMap]
  rw [h1, h2]
  decide

/-- C9 (amended): for every positive width, `getSparkline` is exactly the
claimed pipeline (drop absent values, keep the most recent `width`
remaining entries, map through the 8 intensity buckets), and an empty or
all-absent input yields the empty string at every width. -/
theorem c9_sparkline_amended (samples : List (Option ℚ)) (width : ℕ) :
    (1 ≤ width → getSparkline samples width = sparklineSpec samples width) ∧
    (samples.filterMap id = [] → getSparkline samples width = String.mk []) := by
  constructor
  · intro h
    have hw : ¬width = 0 := by omega
    by_cases he : (samples.filterMap id).isEmpty
    · have hnil : samples.filterMap id = [] := by
        cases hfm : samples.filterMap id with
        | nil => rfl
        | cons a l => rw [hfm] at he; simp [List.isEmpty] at he
      simp [getSparkline, sparklineSpec, hnil]
    · simp [getSparkline, sparklineSpec, jsSliceLast, he, hw]
  · intro hnil
    simp [getSparkline, hnil]

/-- C9 witness: the spec's own example, `[0,25,50,75,100]` at width 5,
where the code and the claimed pipeline agree. -/
theorem c9_sparkline_witness :
    getSparkline [some (0 : ℚ), some 25, some 50, some 75, some 100] 5 =
      sparklineSpec [some (0 : ℚ), some 25, some 50, some 75, some 100] 5 :=
  (c9_sparkline_amended [some (0 : ℚ), some 25, some 50, some 75, some 100] 5).1
    (by decide)

end Limitline
